import Mathlib

/-!
Shallow embedding of the BTG Pactual funds backend, centred on the
Ledger & Balance Consistency Engine of `app/services/fund_service.py`
(with the data model of `app/models/*.py`).

MongoDB collections are embedded as association lists keyed by the
`_id` string (`find_one {"_id": x}` is first-match lookup,
`update_one` rewrites the first matching entry); the transaction
ledger is an append-only list.  Timestamps (`datetime.utcnow()`) and
generated uuids are passed in as explicit parameters of each
operation, one timestamp per call, at the granularity the source
observes (seconds, via `strftime("%Y%m%d_%H%M%S")`); the second-level
format string is abstracted as `toString` of the epoch second, which
is injective on seconds exactly like the source's format.
Python `raise ValueError(...)` paths are embedded as `Except.error`
of a typed error mirroring the spec's error taxonomy, and every
operation returns the (unchanged) state on those paths, matching the
source where every `raise` precedes the first write.
-/

namespace BTG

/-- `TransactionType` from `app/models/transaction.py`. -/
inductive TransactionType where
  | SUBSCRIPTION
  | CANCELLATION
deriving DecidableEq, Repr

/-- `TransactionStatus` from `app/models/transaction.py`. -/
inductive TransactionStatus where
  | COMPLETED
  | FAILED
  | PENDING
deriving DecidableEq, Repr

/-- `FundCategory` from `app/models/fund.py`. -/
inductive FundCategory where
  | FPV
  | FIC
deriving DecidableEq, Repr

/-- A ledger entry: the `transaction_dict` documents built in
`FundService.subscribe_to_fund` / `cancel_fund_subscription`
(fields of the `Transaction` model; `created_at`/`completed_at`
are the same `utcnow()` call site, kept as one `created_at`). -/
structure Txn where
  id : String
  transaction_id : String
  user_id : String
  fund_id : String
  fund_name : String
  transaction_type : TransactionType
  amount : Int
  status : TransactionStatus
  created_at : Nat
deriving DecidableEq, Repr

/-- The fund document (`Fund` model): the fields the Balance Engine
reads (`name`, `minimum_amount`, `is_active`) plus `category` and
`created_at`. -/
structure FundRec where
  name : String
  minimum_amount : Int
  category : FundCategory
  is_active : Bool
  created_at : Nat
deriving DecidableEq, Repr

/-- `FundCreate` from `app/models/fund.py`. -/
structure FundCreate where
  name : String
  minimum_amount : Int
  category : FundCategory
deriving DecidableEq, Repr

/-- The user document restricted to the cash/account aspect the
Balance Engine touches (`balance`, `subscribed_funds` of the `User`
model); auth/profile fields are external plumbing. -/
structure UserRec where
  balance : Int
  subscribed_funds : List String
deriving DecidableEq, Repr

/-- `SubscriptionRequest` from `app/models/user_balance.py`; its
pydantic validation `amount: int = Field(..., gt=0)` is carried
separately as the well-formedness predicate `SubscriptionRequest.wf`. -/
structure SubscriptionRequest where
  fund_id : String
  amount : Int
deriving DecidableEq, Repr

/-- The `gt=0` pydantic constraint on `SubscriptionRequest.amount`:
the API layer rejects non-positive amounts before the service runs. -/
def SubscriptionRequest.wf (r : SubscriptionRequest) : Prop :=
  0 < r.amount

instance (r : SubscriptionRequest) : Decidable r.wf := by
  unfold SubscriptionRequest.wf; infer_instance

/-- `CancellationRequest` from `app/models/user_balance.py`. -/
structure CancellationRequest where
  fund_id : String
deriving DecidableEq, Repr

/-- `UserBalance` response model (`app/models/user_balance.py`). -/
structure UserBalance where
  user_id : String
  current_balance : Int
  available_balance : Int
  subscribed_funds_value : Int
deriving DecidableEq, Repr

/-- `TransactionHistory` response model (`app/models/transaction.py`,
with the `user_id` the service adds). -/
structure TransactionHistory where
  user_id : String
  transactions : List Txn
  total_invested : Int
  available_balance : Int
  total_transactions : Nat
deriving DecidableEq, Repr

/-- The error taxonomy of the subscribe path: the typed rendering of
the `ValueError` messages raised in `subscribe_to_fund` (spec §7). -/
inductive SubscribeError where
  | fundNotFound
  | fundInactive
  | userNotFound
  | belowMinimum (required : Int)
  | insufficientFunds
deriving DecidableEq, Repr

/-- The error taxonomy of the cancel path (`cancel_fund_subscription`). -/
inductive CancelError where
  | fundNotFound
  | userNotFound
  | notSubscribed
  | noActiveInvestment
deriving DecidableEq, Repr

/-- `create_fund`'s duplicate-name `ValueError`. -/
inductive CreateFundError where
  | duplicateName
deriving DecidableEq, Repr

/-- `get_user_balance`'s 404 on a missing user. -/
inductive BalanceError where
  | userNotFound
deriving DecidableEq, Repr

/-- The three MongoDB collections the service reads and writes:
`db.funds`, `db.users` (association lists keyed by `_id`) and the
append-only `db.transactions` ledger. -/
structure ServiceState where
  funds : List (String × FundRec)
  users : List (String × UserRec)
  transactions : List Txn
deriving DecidableEq, Repr

/-- `db.funds.find_one({"_id": fund_id})`. -/
def findFund (s : ServiceState) (fund_id : String) : Option FundRec :=
  (s.funds.find? (fun p => p.1 == fund_id)).map Prod.snd

/-- `db.users.find_one({"_id": user_id})` on a raw users collection. -/
def findUserL (users : List (String × UserRec)) (user_id : String) : Option UserRec :=
  (users.find? (fun p => p.1 == user_id)).map Prod.snd

/-- `db.users.find_one({"_id": user_id})`. -/
def findUser (s : ServiceState) (user_id : String) : Option UserRec :=
  findUserL s.users user_id

/-- `db.users.update_one({"_id": user_id}, ...)`: rewrite the first
entry whose key matches, leave everything else in place. -/
def updateUser (users : List (String × UserRec)) (user_id : String)
    (f : UserRec → UserRec) : List (String × UserRec) :=
  match users with
  | [] => []
  | (k, v) :: rest =>
      if k == user_id then (k, f v) :: rest
      else (k, v) :: updateUser rest user_id f

/-- MongoDB `$addToSet`: append the value unless it is already present. -/
def addToSet (l : List String) (x : String) : List String :=
  if l.contains x then l else l ++ [x]

/-- MongoDB `$pull`: remove every occurrence of the value. -/
def pull (l : List String) (x : String) : List String :=
  l.filter (fun y => y != x)

/-- `transaction_id = f"TXN_{datetime.utcnow().strftime('%Y%m%d_%H%M%S')}_{user_id[:6]}"`:
the UTC time at second granularity (abstracted as the epoch second
rendered with `toString`) glued to the first six characters of the
user id. -/
def mkTransactionId (ts : Nat) (user_id : String) : String :=
  "TXN_" ++ toString ts ++ "_" ++ user_id.take 6

/-- The signed contribution of a ledger entry to an invested total:
`+amount` for SUBSCRIPTION, `-amount` for CANCELLATION (the
`if/elif` body shared by the three folds in the source). -/
def signedAmount (t : Txn) : Int :=
  match t.transaction_type with
  | .SUBSCRIPTION => t.amount
  | .CANCELLATION => -t.amount

/-- The `invested_amount` loop of `cancel_fund_subscription`
(lines 220-232): fold over the ledger entries matching
`{"user_id": user_id, "fund_id": fund_id, "status": "COMPLETED"}`,
adding subscriptions and subtracting cancellations.  This is the
spec's `netInvested(user, fund)`. -/
def netInvested (l : List Txn) (user_id fund_id : String) : Int :=
  l.foldl
    (fun acc t =>
      if t.user_id = user_id ∧ t.fund_id = fund_id ∧ t.status = TransactionStatus.COMPLETED then
        match t.transaction_type with
        | .SUBSCRIPTION => acc + t.amount
        | .CANCELLATION => acc - t.amount
      else acc) 0

/-- The `subscribed_value` loop of `get_user_balance` (lines 91-102):
fold over the ledger entries matching
`{"user_id": user_id, "status": "COMPLETED"}` (no fund filter). -/
def subscribedValue (l : List Txn) (user_id : String) : Int :=
  l.foldl
    (fun acc t =>
      if t.user_id = user_id ∧ t.status = TransactionStatus.COMPLETED then
        match t.transaction_type with
        | .SUBSCRIPTION => acc + t.amount
        | .CANCELLATION => acc - t.amount
      else acc) 0

/-- Insert one entry into a list sorted by `created_at` descending. -/
def insertByCreatedDesc (t : Txn) : List Txn → List Txn
  | [] => [t]
  | u :: us =>
      if u.created_at ≤ t.created_at then t :: u :: us
      else u :: insertByCreatedDesc t us

/-- `.sort("created_at", -1)`: newest first. -/
def sortByCreatedDesc (l : List Txn) : List Txn :=
  l.foldr insertByCreatedDesc []

/-- `FundService.get_user_balance`: 404 when the user is missing;
otherwise `subscribed_value` starts at 0 and the ledger fold runs
only when the cached `subscribed_funds` list is truthy (non-empty);
`current_balance = available + subscribed_value`. -/
def get_user_balance (s : ServiceState) (user_id : String) :
    Except BalanceError UserBalance :=
  match findUser s user_id with
  | none => .error .userNotFound
  | some user =>
      let subscribed_value : Int :=
        if user.subscribed_funds.isEmpty then 0
        else subscribedValue s.transactions user_id
      .ok { user_id := user_id
            current_balance := user.balance + subscribed_value
            available_balance := user.balance
            subscribed_funds_value := subscribed_value }

/-- `FundService.subscribe_to_fund`: the five precondition checks in
source order (fund exists, fund active, user exists, amount below
minimum, insufficient balance), then one atomic write appending the
COMPLETED SUBSCRIPTION entry, setting `balance` to the value computed
from the read user document, and `$addToSet`-ing the fund id. -/
def subscribe_to_fund (s : ServiceState) (user_id : String)
    (subscription : SubscriptionRequest) (ts : Nat) (oid : String) :
    Except SubscribeError Txn × ServiceState :=
  match findFund s subscription.fund_id with
  | none => (.error .fundNotFound, s)
  | some fund =>
      if ¬ fund.is_active then (.error .fundInactive, s)
      else
        match findUser s user_id with
        | none => (.error .userNotFound, s)
        | some user =>
            if subscription.amount < fund.minimum_amount then
              (.error (.belowMinimum fund.minimum_amount), s)
            else if user.balance < subscription.amount then
              (.error .insufficientFunds, s)
            else
              let txn : Txn :=
                { id := oid
                  transaction_id := mkTransactionId ts user_id
                  user_id := user_id
                  fund_id := subscription.fund_id
                  fund_name := fund.name
                  transaction_type := .SUBSCRIPTION
                  amount := subscription.amount
                  status := .COMPLETED
                  created_at := ts }
              (.ok txn,
               { s with
                   transactions := s.transactions ++ [txn]
                   users := updateUser s.users user_id (fun u =>
                     { u with
                         balance := user.balance - subscription.amount
                         subscribed_funds := addToSet u.subscribed_funds subscription.fund_id }) })

/-- `FundService.cancel_fund_subscription`: checks in source order
(fund exists, user exists, fund id in the cached `subscribed_funds`,
ledger-recomputed `invested_amount > 0`), then one atomic write
appending the COMPLETED CANCELLATION entry for the full
`invested_amount`, crediting the balance and `$pull`-ing the fund id. -/
def cancel_fund_subscription (s : ServiceState) (user_id : String)
    (cancellation : CancellationRequest) (ts : Nat) (oid : String) :
    Except CancelError Txn × ServiceState :=
  match findFund s cancellation.fund_id with
  | none => (.error .fundNotFound, s)
  | some fund =>
      match findUser s user_id with
      | none => (.error .userNotFound, s)
      | some user =>
          if ¬ user.subscribed_funds.contains cancellation.fund_id then
            (.error .notSubscribed, s)
          else
            let invested_amount := netInvested s.transactions user_id cancellation.fund_id
            if invested_amount ≤ 0 then (.error .noActiveInvestment, s)
            else
              let txn : Txn :=
                { id := oid
                  transaction_id := mkTransactionId ts user_id
                  user_id := user_id
                  fund_id := cancellation.fund_id
                  fund_name := fund.name
                  transaction_type := .CANCELLATION
                  amount := invested_amount
                  status := .COMPLETED
                  created_at := ts }
              (.ok txn,
               { s with
                   transactions := s.transactions ++ [txn]
                   users := updateUser s.users user_id (fun u =>
                     { u with
                         balance := user.balance + invested_amount
                         subscribed_funds := pull u.subscribed_funds cancellation.fund_id }) })

/-- `FundService.get_user_transaction_history`: all of the user's
ledger entries newest first; `total_invested` folds the COMPLETED
ones (subscriptions minus cancellations) and is clamped with
`max(0, total_invested)`; `available_balance` is 0 when the user is
missing. -/
def get_user_transaction_history (s : ServiceState) (user_id : String) :
    TransactionHistory :=
  let txns := sortByCreatedDesc (s.transactions.filter (fun t => t.user_id == user_id))
  let total_invested :=
    txns.foldl
      (fun acc t =>
        if t.status = TransactionStatus.COMPLETED then
          match t.transaction_type with
          | .SUBSCRIPTION => acc + t.amount
          | .CANCELLATION => acc - t.amount
        else acc) 0
  let available_balance :=
    match findUser s user_id with
    | some user => user.balance
    | none => 0
  { user_id := user_id
    transactions := txns
    total_invested := max 0 total_invested
    available_balance := available_balance
    total_transactions := txns.length }

/-- `FundService.create_fund`: `find_one({"name": ...})`, duplicate
name is a `ValueError`; otherwise insert the new document with a
fresh uuid `_id`, `created_at` and `is_active = True`. -/
def create_fund (s : ServiceState) (fund_data : FundCreate) (oid : String) (ts : Nat) :
    Except CreateFundError FundRec × ServiceState :=
  match s.funds.find? (fun p => p.2.name == fund_data.name) with
  | some _ => (.error .duplicateName, s)
  | none =>
      let fund : FundRec :=
        { name := fund_data.name
          minimum_amount := fund_data.minimum_amount
          category := fund_data.category
          is_active := true
          created_at := ts }
      (.ok fund, { s with funds := s.funds ++ [(oid, fund)] })

/-- One Balance Engine request: a Subscribe or a Cancel call with its
authenticated user, request body, call-time timestamp and generated
document id. -/
inductive Op where
  | subscribe (user_id : String) (r : SubscriptionRequest) (ts : Nat) (oid : String)
  | cancel (user_id : String) (r : CancellationRequest) (ts : Nat) (oid : String)
deriving DecidableEq, Repr

/-- A request is well formed when its body passed the pydantic
validation (`amount > 0` for subscriptions; cancellations carry no
amount). -/
def Op.wf : Op → Prop
  | .subscribe _ r _ _ => r.wf
  | .cancel _ _ _ _ => True

instance (op : Op) : Decidable op.wf := by
  cases op <;> unfold Op.wf <;> infer_instance

/-- Run one request against the state; a rejected request leaves the
state as it was (every `raise` in the source precedes the write). -/
def applyOp (s : ServiceState) : Op → ServiceState
  | .subscribe user_id r ts oid => (subscribe_to_fund s user_id r ts oid).2
  | .cancel user_id r ts oid => (cancel_fund_subscription s user_id r ts oid).2

/-- Run a sequence of requests. -/
def runOps (s : ServiceState) (ops : List Op) : ServiceState :=
  ops.foldl applyOp s

/-! ### The deployed storage layer: the unique `transaction_id` index

`FundService` only ever runs against a database prepared by
`connect_to_mongo` (the sole setter of the handle `get_database`
requires), and `connect_to_mongo` always calls `create_indexes`,
which puts a unique index on `transactions.transaction_id`
(`app/database/connection.py`, line 83).  The `_idx` operation
variants below model the service against that storage layer; the
plain variants above model the always-accepting storage collaborator
of spec section 6, which is equivalent except on a duplicate-id
insert. -/

/-- A service call outcome once the unique indexes are in play:
either one of the operation's own typed failures, or the
`DuplicateKeyError` a unique-index violation raises inside the
session transaction (surfaced by the outer `except Exception` as the
opaque 500). -/
inductive IdxError (E : Type) where
  | domain (e : E)
  | duplicateKey
deriving DecidableEq, Repr

/-- `db.transactions.insert_one` against the unique index on
`transaction_id`: the document lands only when no existing document
carries the same `transaction_id`; otherwise the insert raises
`DuplicateKeyError`. -/
def insertTxnUnique (l : List Txn) (t : Txn) : Option (List Txn) :=
  if l.any (fun t0 => t0.transaction_id == t.transaction_id) then none
  else some (l ++ [t])

/-- `FundService.subscribe_to_fund` as deployed: the five validations
of `subscribe_to_fund`, with the ledger insert checked against the
unique `transaction_id` index.  A `DuplicateKeyError` aborts the
session transaction — neither the ledger entry nor the balance
update commits — and the request fails with the opaque 500. -/
def subscribe_to_fund_idx (s : ServiceState) (user_id : String)
    (subscription : SubscriptionRequest) (ts : Nat) (oid : String) :
    Except (IdxError SubscribeError) Txn × ServiceState :=
  match subscribe_to_fund s user_id subscription ts oid with
  | (.error e, _) => (.error (.domain e), s)
  | (.ok t, s') =>
      match insertTxnUnique s.transactions t with
      | none => (.error .duplicateKey, s)
      | some _ => (.ok t, s')

/-- `FundService.cancel_fund_subscription` as deployed: the four
validations of `cancel_fund_subscription`, with the ledger insert
checked against the unique `transaction_id` index, aborting the
session transaction on a duplicate. -/
def cancel_fund_subscription_idx (s : ServiceState) (user_id : String)
    (cancellation : CancellationRequest) (ts : Nat) (oid : String) :
    Except (IdxError CancelError) Txn × ServiceState :=
  match cancel_fund_subscription s user_id cancellation ts oid with
  | (.error e, _) => (.error (.domain e), s)
  | (.ok t, s') =>
      match insertTxnUnique s.transactions t with
      | none => (.error .duplicateKey, s)
      | some _ => (.ok t, s')

/-- Run one request against the deployed (indexed) storage layer. -/
def applyOpIdx (s : ServiceState) : Op → ServiceState
  | .subscribe user_id r ts oid => (subscribe_to_fund_idx s user_id r ts oid).2
  | .cancel user_id r ts oid => (cancel_fund_subscription_idx s user_id r ts oid).2

/-- Run a sequence of requests against the deployed storage layer. -/
def runOpsIdx (s : ServiceState) (ops : List Op) : ServiceState :=
  ops.foldl applyOpIdx s

/-! ### Fold normalization: each accumulator loop is a sum of weights -/

/-- The per-entry weight of the `cancel` fold: what one ledger entry
contributes to `netInvested l uid fid`. -/
def netWeight (uid fid : String) (t : Txn) : Int :=
  if t.user_id = uid ∧ t.fund_id = fid ∧ t.status = TransactionStatus.COMPLETED then
    signedAmount t
  else 0

/-- The per-entry weight of the `get_user_balance` fold. -/
def valueWeight (uid : String) (t : Txn) : Int :=
  if t.user_id = uid ∧ t.status = TransactionStatus.COMPLETED then signedAmount t else 0

/-- The per-entry weight of the `get_user_transaction_history` fold
(the user filter having already happened in the query). -/
def histWeight (t : Txn) : Int :=
  if t.status = TransactionStatus.COMPLETED then signedAmount t else 0

theorem foldl_add_weight (w : Txn → Int) (l : List Txn) :
    ∀ a : Int, l.foldl (fun acc t => acc + w t) a = a + (l.map w).sum := by
  induction l with
  | nil => intro a; simp
  | cons t l ih =>
      intro a
      simp only [List.foldl_cons, List.map_cons, List.sum_cons, ih (a + w t)]
      ring

theorem netInvested_eq_sum (l : List Txn) (uid fid : String) :
    netInvested l uid fid = (l.map (netWeight uid fid)).sum := by
  have h : (fun (acc : Int) (t : Txn) =>
      if t.user_id = uid ∧ t.fund_id = fid ∧ t.status = TransactionStatus.COMPLETED then
        match t.transaction_type with
        | .SUBSCRIPTION => acc + t.amount
        | .CANCELLATION => acc - t.amount
      else acc) = fun acc t => acc + netWeight uid fid t := by
    funext acc t
    by_cases hc : t.user_id = uid ∧ t.fund_id = fid ∧ t.status = TransactionStatus.COMPLETED
    · cases ht : t.transaction_type <;>
        simp [netWeight, signedAmount, hc, ht, sub_eq_add_neg]
    · simp [netWeight, hc]
  rw [netInvested, h, foldl_add_weight, zero_add]

theorem subscribedValue_eq_sum (l : List Txn) (uid : String) :
    subscribedValue l uid = (l.map (valueWeight uid)).sum := by
  have h : (fun (acc : Int) (t : Txn) =>
      if t.user_id = uid ∧ t.status = TransactionStatus.COMPLETED then
        match t.transaction_type with
        | .SUBSCRIPTION => acc + t.amount
        | .CANCELLATION => acc - t.amount
      else acc) = fun acc t => acc + valueWeight uid t := by
    funext acc t
    by_cases hc : t.user_id = uid ∧ t.status = TransactionStatus.COMPLETED
    · cases ht : t.transaction_type <;>
        simp [valueWeight, signedAmount, hc, ht, sub_eq_add_neg]
    · simp [valueWeight, hc]
  rw [subscribedValue, h, foldl_add_weight, zero_add]

theorem netInvested_append (l l' : List Txn) (uid fid : String) :
    netInvested (l ++ l') uid fid = netInvested l uid fid + netInvested l' uid fid := by
  simp [netInvested_eq_sum]

theorem subscribedValue_append (l l' : List Txn) (uid : String) :
    subscribedValue (l ++ l') uid = subscribedValue l uid + subscribedValue l' uid := by
  simp [subscribedValue_eq_sum]

theorem netInvested_singleton (t : Txn) (uid fid : String) :
    netInvested [t] uid fid = netWeight uid fid t := by
  simp [netInvested_eq_sum]

theorem subscribedValue_singleton (t : Txn) (uid : String) :
    subscribedValue [t] uid = valueWeight uid t := by
  simp [subscribedValue_eq_sum]

/-! ### The history sort is a permutation, so the history fold agrees
with the balance-projection fold -/

theorem insertByCreatedDesc_perm (t : Txn) (l : List Txn) :
    (insertByCreatedDesc t l).Perm (t :: l) := by
  induction l with
  | nil => exact List.Perm.refl _
  | cons u us ih =>
      simp only [insertByCreatedDesc]
      split
      · exact List.Perm.refl _
      · exact (List.Perm.cons u ih).trans (List.Perm.swap t u us)

theorem sortByCreatedDesc_perm (l : List Txn) : (sortByCreatedDesc l).Perm l := by
  induction l with
  | nil => exact List.Perm.refl _
  | cons t l ih =>
      have : sortByCreatedDesc (t :: l) = insertByCreatedDesc t (sortByCreatedDesc l) := rfl
      rw [this]
      exact (insertByCreatedDesc_perm t (sortByCreatedDesc l)).trans (List.Perm.cons t ih)

theorem sum_map_filter_eq (q : Txn → Bool) (w : Txn → Int) (l : List Txn) :
    ((l.filter q).map w).sum = (l.map (fun t => if q t then w t else 0)).sum := by
  induction l with
  | nil => rfl
  | cons t l ih =>
      by_cases hq : q t
      · simp [List.filter_cons, hq, ih]
      · simp [List.filter_cons, hq, ih]

/-- The `total_invested` reported by the History Query is the clamp of
the very same fold `get_user_balance` uses. -/
theorem history_total_eq (s : ServiceState) (uid : String) :
    (get_user_transaction_history s uid).total_invested =
      max 0 ((s.transactions.map (valueWeight uid)).sum) := by
  have hfun : (fun (acc : Int) (t : Txn) =>
      if t.status = TransactionStatus.COMPLETED then
        match t.transaction_type with
        | .SUBSCRIPTION => acc + t.amount
        | .CANCELLATION => acc - t.amount
      else acc) = fun acc t => acc + histWeight t := by
    funext acc t
    by_cases hc : t.status = TransactionStatus.COMPLETED
    · cases ht : t.transaction_type <;>
        simp [histWeight, signedAmount, hc, ht, sub_eq_add_neg]
    · simp [histWeight, hc]
  have hsorted :
      ((sortByCreatedDesc (s.transactions.filter (fun t => t.user_id == uid))).map histWeight).sum
        = ((s.transactions.filter (fun t => t.user_id == uid)).map histWeight).sum :=
    List.Perm.sum_eq (List.Perm.map histWeight (sortByCreatedDesc_perm _))
  have hweights : (fun t => if (t.user_id == uid) then histWeight t else 0) = valueWeight uid := by
    funext t
    by_cases hu : t.user_id = uid
    · by_cases hc : t.status = TransactionStatus.COMPLETED <;>
        simp [histWeight, valueWeight, hu, hc]
    · simp [histWeight, valueWeight, hu]
  simp only [get_user_transaction_history, hfun, foldl_add_weight, zero_add, hsorted,
    sum_map_filter_eq, hweights]

/-! ### `$addToSet` / `$pull` facts -/

theorem addToSet_eq_of_mem {l : List String} {x : String} (h : x ∈ l) :
    addToSet l x = l := by
  unfold addToSet
  rw [if_pos (by simp [h])]

theorem addToSet_eq_of_not_mem {l : List String} {x : String} (h : x ∉ l) :
    addToSet l x = l ++ [x] := by
  unfold addToSet
  rw [if_neg (by simp [h])]

theorem mem_addToSet {l : List String} {x a : String} :
    a ∈ addToSet l x ↔ a ∈ l ∨ a = x := by
  by_cases hx : x ∈ l
  · rw [addToSet_eq_of_mem hx]
    constructor
    · exact Or.inl
    · rintro (h | h)
      · exact h
      · exact h ▸ hx
  · rw [addToSet_eq_of_not_mem hx]
    simp

theorem nodup_addToSet {l : List String} {x : String} (h : l.Nodup) :
    (addToSet l x).Nodup := by
  by_cases hx : x ∈ l
  · rw [addToSet_eq_of_mem hx]; exact h
  · rw [addToSet_eq_of_not_mem hx]
    rw [List.nodup_append]
    refine ⟨h, List.nodup_singleton x, ?_⟩
    intro a ha hax
    rw [List.mem_singleton] at hax
    exact hx (hax ▸ ha)

theorem mem_pull {l : List String} {x a : String} :
    a ∈ pull l x ↔ a ∈ l ∧ a ≠ x := by
  unfold pull
  simp [List.mem_filter, bne_iff_ne]

theorem pull_eq_of_not_mem {l : List String} {x : String} (h : x ∉ l) :
    pull l x = l := by
  unfold pull
  rw [List.filter_eq_self]
  intro a ha
  exact bne_iff_ne.mpr (fun hax => h (hax ▸ ha))

theorem nodup_pull {l : List String} {x : String} (h : l.Nodup) :
    (pull l x).Nodup :=
  List.Nodup.filter _ h

/-! ### Sums over the subscribed-funds set -/

theorem sum_map_add_str (f g : String → Int) (l : List String) :
    (l.map (fun x => f x + g x)).sum = (l.map f).sum + (l.map g).sum := by
  induction l with
  | nil => simp
  | cons a l ih => simp [ih]; ring

theorem sum_if_of_not_mem (l : List String) (x : String) (c : Int) (h : x ∉ l) :
    (l.map (fun g => if g = x then c else 0)).sum = 0 := by
  induction l with
  | nil => simp
  | cons a l ih =>
      have ha : a ≠ x := fun hax => h (hax ▸ List.mem_cons_self a l)
      have hl : x ∉ l := fun hx => h (List.mem_cons_of_mem a hx)
      simp [ha, ih hl]

theorem sum_if_of_nodup_mem (l : List String) (x : String) (c : Int)
    (hn : l.Nodup) (hx : x ∈ l) :
    (l.map (fun g => if g = x then c else 0)).sum = c := by
  induction l with
  | nil => cases hx
  | cons a l ih =>
      rcases List.mem_cons.mp hx with h | h
      · subst h
        have hxl : x ∉ l := (List.nodup_cons.mp hn).1
        simp [sum_if_of_not_mem l x c hxl]
      · have ha : a ≠ x := by
          intro hax
          exact (List.nodup_cons.mp hn).1 (by rw [hax]; exact h)
        simp [ha, ih (List.nodup_cons.mp hn).2 h]

theorem sum_map_pull (w : String → Int) (l : List String) (x : String)
    (hn : l.Nodup) (hx : x ∈ l) :
    ((pull l x).map w).sum = (l.map w).sum - w x := by
  induction l with
  | nil => cases hx
  | cons a l ih =>
      rcases List.mem_cons.mp hx with h | h
      · subst h
        have hxl : x ∉ l := (List.nodup_cons.mp hn).1
        have h1 : pull (x :: l) x = pull l x := by
          simp [pull, List.filter_cons]
        rw [h1, pull_eq_of_not_mem hxl]
        simp only [List.map_cons, List.sum_cons]
        ring
      · have ha : a ≠ x := by
          intro hax
          exact (List.nodup_cons.mp hn).1 (by rw [hax]; exact h)
        have h1 : pull (a :: l) x = a :: pull l x := by
          simp [pull, List.filter_cons, bne_iff_ne.mpr ha]
        rw [h1]
        simp only [List.map_cons, List.sum_cons, ih (List.nodup_cons.mp hn).2 h]
        ring

/-! ### `find_one` / `update_one` on the users collection -/

theorem findUserL_updateUser_self (us : List (String × UserRec)) (uid : String)
    (f : UserRec → UserRec) :
    findUserL (updateUser us uid f) uid = (findUserL us uid).map f := by
  induction us with
  | nil => rfl
  | cons p rest ih =>
      obtain ⟨k, v⟩ := p
      by_cases hk : (k == uid) = true
      · simp only [updateUser]
        rw [if_pos hk]
        simp only [findUserL, List.find?, hk]
        rfl
      · have hk' : (k == uid) = false := by simpa using hk
        simp only [updateUser]
        rw [if_neg hk]
        simp only [findUserL, List.find?, hk']
        exact ih

theorem findUserL_updateUser_ne (us : List (String × UserRec)) (uid uid' : String)
    (f : UserRec → UserRec) (h : uid' ≠ uid) :
    findUserL (updateUser us uid f) uid' = findUserL us uid' := by
  induction us with
  | nil => rfl
  | cons p rest ih =>
      obtain ⟨k, v⟩ := p
      by_cases hk : (k == uid) = true
      · have hk2 : (k == uid') = false := by
          rw [beq_iff_eq] at hk
          rw [beq_eq_false_iff_ne]
          exact fun he => h (by rw [← he, hk])
        simp only [updateUser]
        rw [if_pos hk]
        simp only [findUserL, List.find?, hk2]
      · have hk' : (k == uid) = false := by simpa using hk
        simp only [updateUser]
        rw [if_neg hk]
        by_cases hk2 : (k == uid') = true
        · simp only [findUserL, List.find?, hk2]
        · have hk2' : (k == uid') = false := by simpa using hk2
          simp only [findUserL, List.find?, hk2']
          exact ih

theorem forall_updateUser {P : UserRec → Prop} (us : List (String × UserRec))
    (uid : String) (f : UserRec → UserRec)
    (hall : ∀ p ∈ us, P p.2) (hf : ∀ u, P (f u)) :
    ∀ p ∈ updateUser us uid f, P p.2 := by
  induction us with
  | nil => intro p hp; cases hp
  | cons q rest ih =>
      obtain ⟨k, v⟩ := q
      intro p hp
      by_cases hk : (k == uid) = true
      · simp only [updateUser] at hp
        rw [if_pos hk] at hp
        rcases List.mem_cons.mp hp with h | h
        · rw [h]; exact hf v
        · exact hall p (List.mem_cons_of_mem _ h)
      · simp only [updateUser] at hp
        rw [if_neg hk] at hp
        rcases List.mem_cons.mp hp with h | h
        · rw [h]; exact hall (k, v) (List.mem_cons_self _ _)
        · exact ih (fun q hq => hall q (List.mem_cons_of_mem _ hq)) p h

/-! ### What the two mutating operations do, case by case -/

/-- The `transaction_dict` a successful subscription inserts. -/
def subTxn (user_id : String) (r : SubscriptionRequest) (fund : FundRec)
    (ts : Nat) (oid : String) : Txn :=
  { id := oid
    transaction_id := mkTransactionId ts user_id
    user_id := user_id
    fund_id := r.fund_id
    fund_name := fund.name
    transaction_type := .SUBSCRIPTION
    amount := r.amount
    status := .COMPLETED
    created_at := ts }

/-- The `transaction_dict` a successful cancellation inserts. -/
def cancelTxn (user_id fund_id : String) (fund : FundRec) (amount : Int)
    (ts : Nat) (oid : String) : Txn :=
  { id := oid
    transaction_id := mkTransactionId ts user_id
    user_id := user_id
    fund_id := fund_id
    fund_name := fund.name
    transaction_type := .CANCELLATION
    amount := amount
    status := .COMPLETED
    created_at := ts }

theorem subscribe_success_eq (s : ServiceState) (user_id : String)
    (r : SubscriptionRequest) (ts : Nat) (oid : String) {fund : FundRec} {user : UserRec}
    (hf : findFund s r.fund_id = some fund) (ha : fund.is_active = true)
    (hu : findUser s user_id = some user)
    (hmin : fund.minimum_amount ≤ r.amount) (hbal : r.amount ≤ user.balance) :
    subscribe_to_fund s user_id r ts oid =
      (.ok (subTxn user_id r fund ts oid),
       { s with
           transactions := s.transactions ++ [subTxn user_id r fund ts oid]
           users := updateUser s.users user_id (fun u =>
             { u with
                 balance := user.balance - r.amount
                 subscribed_funds := addToSet u.subscribed_funds r.fund_id }) }) := by
  unfold subscribe_to_fund
  rw [hf]
  simp only [ha, not_true, if_neg (by simp : ¬ (¬ True)), hu]
  rw [if_neg (not_lt.mpr hmin), if_neg (not_lt.mpr hbal)]
  rfl

theorem cancel_success_eq (s : ServiceState) (user_id : String)
    (c : CancellationRequest) (ts : Nat) (oid : String) {fund : FundRec} {user : UserRec}
    (hf : findFund s c.fund_id = some fund)
    (hu : findUser s user_id = some user)
    (hsub : c.fund_id ∈ user.subscribed_funds)
    (hpos : 0 < netInvested s.transactions user_id c.fund_id) :
    cancel_fund_subscription s user_id c ts oid =
      (.ok (cancelTxn user_id c.fund_id fund
              (netInvested s.transactions user_id c.fund_id) ts oid),
       { s with
           transactions := s.transactions ++
             [cancelTxn user_id c.fund_id fund
                (netInvested s.transactions user_id c.fund_id) ts oid]
           users := updateUser s.users user_id (fun u =>
             { u with
                 balance := user.balance + netInvested s.transactions user_id c.fund_id
                 subscribed_funds := pull u.subscribed_funds c.fund_id }) }) := by
  simp only [cancel_fund_subscription, hf, hu]
  rw [if_neg (by simp [hsub])]
  rw [if_neg (not_le.mpr hpos)]
  rfl

/-- Every run of `subscribe_to_fund` either rejects the request (and
returns the state unchanged) or succeeds. -/
theorem subscribe_dichotomy (s : ServiceState) (user_id : String)
    (r : SubscriptionRequest) (ts : Nat) (oid : String) :
    (∃ e, subscribe_to_fund s user_id r ts oid = (.error e, s)) ∨
    (∃ t s', subscribe_to_fund s user_id r ts oid = (.ok t, s')) := by
  unfold subscribe_to_fund
  split
  · exact .inl ⟨_, rfl⟩
  · split
    · exact .inl ⟨_, rfl⟩
    · split
      · exact .inl ⟨_, rfl⟩
      · split
        · exact .inl ⟨_, rfl⟩
        · split
          · exact .inl ⟨_, rfl⟩
          · exact .inr ⟨_, _, rfl⟩

/-- Every run of `cancel_fund_subscription` either rejects the request
(and returns the state unchanged) or succeeds. -/
theorem cancel_dichotomy (s : ServiceState) (user_id : String)
    (c : CancellationRequest) (ts : Nat) (oid : String) :
    (∃ e, cancel_fund_subscription s user_id c ts oid = (.error e, s)) ∨
    (∃ t s', cancel_fund_subscription s user_id c ts oid = (.ok t, s')) := by
  unfold cancel_fund_subscription
  split
  · exact .inl ⟨_, rfl⟩
  · split
    · exact .inl ⟨_, rfl⟩
    · split
      · exact .inl ⟨_, rfl⟩
      · dsimp only
        split
        · exact .inl ⟨_, rfl⟩
        · exact .inr ⟨_, _, rfl⟩

/-! ### How one appended ledger entry moves the folds -/

theorem netInvested_after_subTxn (l : List Txn) (uid₀ : String) (r : SubscriptionRequest)
    (fund : FundRec) (ts : Nat) (oid : String) (uid fid : String) :
    netInvested (l ++ [subTxn uid₀ r fund ts oid]) uid fid =
      netInvested l uid fid + (if uid₀ = uid ∧ r.fund_id = fid then r.amount else 0) := by
  rw [netInvested_append, netInvested_singleton]
  by_cases hc : uid₀ = uid ∧ r.fund_id = fid
  · simp [netWeight, subTxn, signedAmount, hc.1, hc.2]
  · rw [if_neg hc]
    have : ¬ ((subTxn uid₀ r fund ts oid).user_id = uid ∧
        (subTxn uid₀ r fund ts oid).fund_id = fid ∧
        (subTxn uid₀ r fund ts oid).status = TransactionStatus.COMPLETED) := by
      simp only [subTxn]
      intro h
      exact hc ⟨h.1, h.2.1⟩
    simp [netWeight, this]

theorem subscribedValue_after_subTxn (l : List Txn) (uid₀ : String) (r : SubscriptionRequest)
    (fund : FundRec) (ts : Nat) (oid : String) (uid : String) :
    subscribedValue (l ++ [subTxn uid₀ r fund ts oid]) uid =
      subscribedValue l uid + (if uid₀ = uid then r.amount else 0) := by
  rw [subscribedValue_append, subscribedValue_singleton]
  by_cases hc : uid₀ = uid
  · simp [valueWeight, subTxn, signedAmount, hc]
  · have : ¬ ((subTxn uid₀ r fund ts oid).user_id = uid ∧
        (subTxn uid₀ r fund ts oid).status = TransactionStatus.COMPLETED) := by
      simp only [subTxn]
      intro h
      exact hc h.1
    simp [valueWeight, this, hc]

theorem netInvested_after_cancelTxn (l : List Txn) (uid₀ fid₀ : String)
    (fund : FundRec) (amt : Int) (ts : Nat) (oid : String) (uid fid : String) :
    netInvested (l ++ [cancelTxn uid₀ fid₀ fund amt ts oid]) uid fid =
      netInvested l uid fid - (if uid₀ = uid ∧ fid₀ = fid then amt else 0) := by
  rw [netInvested_append, netInvested_singleton]
  by_cases hc : uid₀ = uid ∧ fid₀ = fid
  · simp [netWeight, cancelTxn, signedAmount, hc.1, hc.2, sub_eq_add_neg]
  · have : ¬ ((cancelTxn uid₀ fid₀ fund amt ts oid).user_id = uid ∧
        (cancelTxn uid₀ fid₀ fund amt ts oid).fund_id = fid ∧
        (cancelTxn uid₀ fid₀ fund amt ts oid).status = TransactionStatus.COMPLETED) := by
      simp only [cancelTxn]
      intro h
      exact hc ⟨h.1, h.2.1⟩
    simp [netWeight, this, hc]

theorem subscribedValue_after_cancelTxn (l : List Txn) (uid₀ fid₀ : String)
    (fund : FundRec) (amt : Int) (ts : Nat) (oid : String) (uid : String) :
    subscribedValue (l ++ [cancelTxn uid₀ fid₀ fund amt ts oid]) uid =
      subscribedValue l uid - (if uid₀ = uid then amt else 0) := by
  rw [subscribedValue_append, subscribedValue_singleton]
  by_cases hc : uid₀ = uid
  · simp [valueWeight, cancelTxn, signedAmount, hc, sub_eq_add_neg]
  · have : ¬ ((cancelTxn uid₀ fid₀ fund amt ts oid).user_id = uid ∧
        (cancelTxn uid₀ fid₀ fund amt ts oid).status = TransactionStatus.COMPLETED) := by
      simp only [cancelTxn]
      intro h
      exact hc h.1
    simp [valueWeight, this, hc]

/-! ### The ledger/cache consistency invariant (spec §3 User invariant)
maintained by the Balance Engine -/

/-- Per-user consistency between the ledger and the cached
`subscribed_funds` set: the set has no duplicates, every per-fund net
position is non-negative, funds outside the cached set have a zero
net position, and the balance-projection fold decomposes as the sum
of the per-fund net positions of the cached set. -/
def UserInv (l : List Txn) (uid : String) (u : UserRec) : Prop :=
  u.subscribed_funds.Nodup ∧
  (∀ fid, 0 ≤ netInvested l uid fid) ∧
  (∀ fid, fid ∉ u.subscribed_funds → netInvested l uid fid = 0) ∧
  subscribedValue l uid = (u.subscribed_funds.map (fun fid => netInvested l uid fid)).sum

/-- The consistency invariant for every user in the collection. -/
def StateInv (s : ServiceState) : Prop :=
  ∀ uid u, findUser s uid = some u → UserInv s.transactions uid u

/-- An untouched user keeps its invariant when the appended ledger
entries do not change its folds. -/
theorem userInv_congr_ledger {l l' : List Txn} {uid : String} {u : UserRec}
    (hinv : UserInv l uid u)
    (hnet : ∀ fid, netInvested l' uid fid = netInvested l uid fid)
    (hval : subscribedValue l' uid = subscribedValue l uid) :
    UserInv l' uid u := by
  obtain ⟨h1, h2, h3, h4⟩ := hinv
  refine ⟨h1, fun fid => ?_, fun fid hf => ?_, ?_⟩
  · rw [hnet fid]; exact h2 fid
  · rw [hnet fid]; exact h3 fid hf
  · rw [hval, h4]
    congr 1
    exact List.map_congr_left (fun fid _ => (hnet fid).symm)

/-- A state with an empty ledger whose users all carry duplicate-free
cached sets satisfies the invariant; in particular the spec's initial
states (users created with `subscribed_funds = []`) do. -/
theorem stateInv_of_empty_ledger (s : ServiceState)
    (hl : s.transactions = [])
    (hu : ∀ uid u, findUser s uid = some u → u.subscribed_funds.Nodup) :
    StateInv s := by
  intro uid u hfind
  have hz : ∀ fid, netInvested s.transactions uid fid = 0 := by
    intro fid; rw [hl]; rfl
  refine ⟨hu uid u hfind, fun fid => by rw [hz fid], fun fid _ => hz fid, ?_⟩
  have : subscribedValue s.transactions uid = 0 := by rw [hl]; rfl
  rw [this]
  have : (u.subscribed_funds.map (fun fid => netInvested s.transactions uid fid)).sum
      = (u.subscribed_funds.map (fun _ => (0 : Int))).sum := by
    congr 1
    exact List.map_congr_left (fun fid _ => hz fid)
  rw [this]
  simp

/-- The state reached by `subscribe_to_fund` is either untouched (a
rejected request) or the success state, with all five checks known to
have passed. -/
theorem subscribe_snd_cases (s : ServiceState) (uid₀ : String)
    (r : SubscriptionRequest) (ts : Nat) (oid : String) :
    (subscribe_to_fund s uid₀ r ts oid).2 = s ∨
    ∃ fund user, findFund s r.fund_id = some fund ∧ fund.is_active = true ∧
      findUser s uid₀ = some user ∧ fund.minimum_amount ≤ r.amount ∧
      r.amount ≤ user.balance ∧
      (subscribe_to_fund s uid₀ r ts oid).2 =
        { s with
            transactions := s.transactions ++ [subTxn uid₀ r fund ts oid]
            users := updateUser s.users uid₀ (fun u =>
              { u with
                  balance := user.balance - r.amount
                  subscribed_funds := addToSet u.subscribed_funds r.fund_id }) } := by
  cases hf : findFund s r.fund_id with
  | none => exact .inl (by simp [subscribe_to_fund, hf])
  | some fund =>
      by_cases ha : fund.is_active = true
      · cases hu : findUser s uid₀ with
        | none => exact .inl (by simp [subscribe_to_fund, hf, ha, hu])
        | some user =>
            by_cases hmin : r.amount < fund.minimum_amount
            · exact .inl (by simp [subscribe_to_fund, hf, ha, hu, hmin])
            · by_cases hbal : user.balance < r.amount
              · exact .inl (by simp [subscribe_to_fund, hf, ha, hu, hmin, hbal])
              · refine .inr ⟨fund, user, rfl, ha, rfl, not_lt.mp hmin, not_lt.mp hbal, ?_⟩
                rw [subscribe_success_eq s uid₀ r ts oid hf ha hu
                  (not_lt.mp hmin) (not_lt.mp hbal)]
      · exact .inl (by simp [subscribe_to_fund, hf, ha])

/-- The state reached by `cancel_fund_subscription` is either
untouched or the success state, with all four checks known to have
passed. -/
theorem cancel_snd_cases (s : ServiceState) (uid₀ : String)
    (c : CancellationRequest) (ts : Nat) (oid : String) :
    (cancel_fund_subscription s uid₀ c ts oid).2 = s ∨
    ∃ fund user, findFund s c.fund_id = some fund ∧
      findUser s uid₀ = some user ∧ c.fund_id ∈ user.subscribed_funds ∧
      0 < netInvested s.transactions uid₀ c.fund_id ∧
      (cancel_fund_subscription s uid₀ c ts oid).2 =
        { s with
            transactions := s.transactions ++
              [cancelTxn uid₀ c.fund_id fund
                (netInvested s.transactions uid₀ c.fund_id) ts oid]
            users := updateUser s.users uid₀ (fun u =>
              { u with
                  balance := user.balance + netInvested s.transactions uid₀ c.fund_id
                  subscribed_funds := pull u.subscribed_funds c.fund_id }) } := by
  cases hf : findFund s c.fund_id with
  | none => exact .inl (by simp [cancel_fund_subscription, hf])
  | some fund =>
      cases hu : findUser s uid₀ with
      | none => exact .inl (by simp [cancel_fund_subscription, hf, hu])
      | some user =>
          by_cases hsub : c.fund_id ∈ user.subscribed_funds
          · by_cases hpos : netInvested s.transactions uid₀ c.fund_id ≤ 0
            · exact .inl (by simp [cancel_fund_subscription, hf, hu, hsub, hpos])
            · refine .inr ⟨fund, user, rfl, rfl, hsub, not_le.mp hpos, ?_⟩
              rw [cancel_success_eq s uid₀ c ts oid hf hu hsub (not_le.mp hpos)]
          · exact .inl (by simp [cancel_fund_subscription, hf, hu, hsub])

/-- A successful `subscribe_to_fund` appends exactly its returned
transaction to the ledger. -/
theorem subscribe_ok_transactions {s : ServiceState} {user_id : String}
    {r : SubscriptionRequest} {ts : Nat} {oid : String} {t : Txn} {s' : ServiceState}
    (h : subscribe_to_fund s user_id r ts oid = (.ok t, s')) :
    s'.transactions = s.transactions ++ [t] := by
  unfold subscribe_to_fund at h
  split at h
  · simp at h
  · split at h
    · simp at h
    · split at h
      · simp at h
      · split at h
        · simp at h
        · split at h
          · simp at h
          · simp only [Prod.mk.injEq] at h
            obtain ⟨h1, h2⟩ := h
            injection h1 with h1
            subst h1
            rw [← h2]

/-- A successful `cancel_fund_subscription` appends exactly its
returned transaction to the ledger. -/
theorem cancel_ok_transactions {s : ServiceState} {user_id : String}
    {c : CancellationRequest} {ts : Nat} {oid : String} {t : Txn} {s' : ServiceState}
    (h : cancel_fund_subscription s user_id c ts oid = (.ok t, s')) :
    s'.transactions = s.transactions ++ [t] := by
  unfold cancel_fund_subscription at h
  split at h
  · simp at h
  · split at h
    · simp at h
    · split at h
      · simp at h
      · dsimp only at h
        split at h
        · simp at h
        · simp only [Prod.mk.injEq] at h
          obtain ⟨h1, h2⟩ := h
          injection h1 with h1
          subst h1
          rw [← h2]

/-- An insert the unique index accepts carries a `transaction_id`
absent from the existing ledger, and appends the document. -/
theorem insertTxnUnique_some {l : List Txn} {t : Txn} {l' : List Txn}
    (h : insertTxnUnique l t = some l') :
    t.transaction_id ∉ l.map (fun t0 => t0.transaction_id) ∧ l' = l ++ [t] := by
  unfold insertTxnUnique at h
  by_cases hany : l.any (fun t0 => t0.transaction_id == t.transaction_id)
  · rw [if_pos hany] at h
    cases h
  · rw [if_neg hany] at h
    injection h with h
    refine ⟨?_, h.symm⟩
    intro hmem
    apply hany
    rw [List.any_eq_true]
    obtain ⟨t0, ht0, hid⟩ := List.mem_map.mp hmem
    exact ⟨t0, ht0, by simp [hid]⟩

/-- One request against the indexed storage layer preserves pairwise
distinctness of the ledger's `transaction_id` values: a fresh id is
appended, a duplicate id aborts the whole write. -/
theorem txnIds_nodup_applyOpIdx (s : ServiceState) (op : Op)
    (h : (s.transactions.map (fun t => t.transaction_id)).Nodup) :
    ((applyOpIdx s op).transactions.map (fun t => t.transaction_id)).Nodup := by
  cases op with
  | subscribe user_id r ts oid =>
      show (((subscribe_to_fund_idx s user_id r ts oid).2).transactions.map
        (fun t => t.transaction_id)).Nodup
      unfold subscribe_to_fund_idx
      split
      · exact h
      · next t s' hres =>
          split
          · exact h
          · next l' hins =>
              have htr := subscribe_ok_transactions hres
              obtain ⟨hfresh, -⟩ := insertTxnUnique_some hins
              show ((s'.transactions.map (fun t => t.transaction_id))).Nodup
              rw [htr, List.map_append, List.nodup_append]
              refine ⟨h, List.nodup_singleton _, ?_⟩
              intro a ha hb
              rw [show List.map (fun t0 => t0.transaction_id) [t] = [t.transaction_id]
                from rfl, List.mem_singleton] at hb
              exact hfresh (hb ▸ ha)
  | cancel user_id c ts oid =>
      show (((cancel_fund_subscription_idx s user_id c ts oid).2).transactions.map
        (fun t => t.transaction_id)).Nodup
      unfold cancel_fund_subscription_idx
      split
      · exact h
      · next t s' hres =>
          split
          · exact h
          · next l' hins =>
              have htr := cancel_ok_transactions hres
              obtain ⟨hfresh, -⟩ := insertTxnUnique_some hins
              show ((s'.transactions.map (fun t => t.transaction_id))).Nodup
              rw [htr, List.map_append, List.nodup_append]
              refine ⟨h, List.nodup_singleton _, ?_⟩
              intro a ha hb
              rw [show List.map (fun t0 => t0.transaction_id) [t] = [t.transaction_id]
                from rfl, List.mem_singleton] at hb
              exact hfresh (hb ▸ ha)

theorem txnIds_nodup_runOpsIdx (s : ServiceState) (ops : List Op)
    (h : (s.transactions.map (fun t => t.transaction_id)).Nodup) :
    ((runOpsIdx s ops).transactions.map (fun t => t.transaction_id)).Nodup := by
  induction ops generalizing s with
  | nil => exact h
  | cons op ops ih => exact ih (applyOpIdx s op) (txnIds_nodup_applyOpIdx s op h)

theorem findUserL_mem {us : List (String × UserRec)} {uid : String} {u : UserRec}
    (h : findUserL us uid = some u) : ∃ k, (k, u) ∈ us := by
  unfold findUserL at h
  cases hfind : us.find? (fun p => p.1 == uid) with
  | none => rw [hfind] at h; cases h
  | some p =>
      rw [hfind] at h
      refine ⟨p.1, ?_⟩
      have hp : p.2 = u := by
        simpa using h
      have := List.mem_of_find?_eq_some hfind
      rwa [show (p.1, u) = p from by rw [← hp]]

/-- The subscribing user keeps the consistency invariant across a
successful subscription. -/
theorem userInv_subscribe_self {l : List Txn} {uid₀ : String} {r : SubscriptionRequest}
    (fund : FundRec) (ts : Nat) (oid : String) {user : UserRec}
    (hinv : UserInv l uid₀ user) (hamt : 0 < r.amount) :
    UserInv (l ++ [subTxn uid₀ r fund ts oid]) uid₀
      { user with
          balance := user.balance - r.amount
          subscribed_funds := addToSet user.subscribed_funds r.fund_id } := by
  obtain ⟨hnd, hnn, hzero, hdecomp⟩ := hinv
  have hnet : ∀ fid, netInvested (l ++ [subTxn uid₀ r fund ts oid]) uid₀ fid =
      netInvested l uid₀ fid + (if fid = r.fund_id then r.amount else 0) := by
    intro fid
    rw [netInvested_after_subTxn]
    by_cases h : fid = r.fund_id
    · simp [h]
    · simp [h, Ne.symm h]
  have hval : subscribedValue (l ++ [subTxn uid₀ r fund ts oid]) uid₀ =
      subscribedValue l uid₀ + r.amount := by
    rw [subscribedValue_after_subTxn]
    simp
  refine ⟨nodup_addToSet hnd, ?_, ?_, ?_⟩
  · intro fid
    rw [hnet fid]
    by_cases h : fid = r.fund_id
    · rw [if_pos h]
      have := hnn fid
      omega
    · rw [if_neg h, add_zero]
      exact hnn fid
  · intro fid hfid
    have hmem := hfid
    rw [show ({ user with
        balance := user.balance - r.amount
        subscribed_funds := addToSet user.subscribed_funds r.fund_id } : UserRec).subscribed_funds
      = addToSet user.subscribed_funds r.fund_id from rfl] at hmem
    have hnot : ¬ (fid ∈ user.subscribed_funds ∨ fid = r.fund_id) := by
      intro h
      exact hmem (mem_addToSet.mpr h)
    push_neg at hnot
    rw [hnet fid, if_neg hnot.2, add_zero]
    exact hzero fid hnot.1
  · rw [hval]
    show subscribedValue l uid₀ + r.amount =
      ((addToSet user.subscribed_funds r.fund_id).map
        (fun fid => netInvested (l ++ [subTxn uid₀ r fund ts oid]) uid₀ fid)).sum
    have hmap : ((addToSet user.subscribed_funds r.fund_id).map
        (fun fid => netInvested (l ++ [subTxn uid₀ r fund ts oid]) uid₀ fid)).sum =
        ((addToSet user.subscribed_funds r.fund_id).map
          (fun fid => netInvested l uid₀ fid)).sum +
        ((addToSet user.subscribed_funds r.fund_id).map
          (fun fid => if fid = r.fund_id then r.amount else 0)).sum := by
      rw [← sum_map_add_str]
      congr 1
      exact List.map_congr_left (fun fid _ => hnet fid)
    rw [hmap]
    by_cases hin : r.fund_id ∈ user.subscribed_funds
    · rw [addToSet_eq_of_mem hin]
      rw [sum_if_of_nodup_mem _ _ _ hnd hin, hdecomp]
    · rw [addToSet_eq_of_not_mem hin]
      rw [List.map_append, List.map_append, List.sum_append, List.sum_append]
      rw [sum_if_of_not_mem _ _ _ hin]
      simp [hzero r.fund_id hin, hdecomp]

/-- The cancelling user keeps the consistency invariant across a
successful cancellation (the appended entry carries the full
pre-call net position). -/
theorem userInv_cancel_self {l : List Txn} {uid₀ fid₀ : String}
    (fund : FundRec) (ts : Nat) (oid : String) {user : UserRec}
    (hinv : UserInv l uid₀ user) (hsub : fid₀ ∈ user.subscribed_funds) :
    UserInv (l ++ [cancelTxn uid₀ fid₀ fund (netInvested l uid₀ fid₀) ts oid]) uid₀
      { user with
          balance := user.balance + netInvested l uid₀ fid₀
          subscribed_funds := pull user.subscribed_funds fid₀ } := by
  obtain ⟨hnd, hnn, hzero, hdecomp⟩ := hinv
  set v := netInvested l uid₀ fid₀ with hv
  have hnet : ∀ fid, netInvested (l ++ [cancelTxn uid₀ fid₀ fund v ts oid]) uid₀ fid =
      netInvested l uid₀ fid - (if fid = fid₀ then v else 0) := by
    intro fid
    rw [netInvested_after_cancelTxn]
    by_cases h : fid = fid₀
    · simp [h]
    · simp [h, Ne.symm h]
  have hval : subscribedValue (l ++ [cancelTxn uid₀ fid₀ fund v ts oid]) uid₀ =
      subscribedValue l uid₀ - v := by
    rw [subscribedValue_after_cancelTxn]
    simp
  refine ⟨nodup_pull hnd, ?_, ?_, ?_⟩
  · intro fid
    rw [hnet fid]
    by_cases h : fid = fid₀
    · rw [if_pos h, h, ← hv]
      simp
    · rw [if_neg h, sub_zero]
      exact hnn fid
  · intro fid hfid
    have hmem : ¬ (fid ∈ user.subscribed_funds ∧ fid ≠ fid₀) := by
      intro h
      exact hfid (mem_pull.mpr h)
    by_cases h : fid = fid₀
    · rw [hnet fid, if_pos h, h, ← hv]
      ring
    · rw [hnet fid, if_neg h, sub_zero]
      exact hzero fid (fun hin => hmem ⟨hin, h⟩)
  · rw [hval]
    show subscribedValue l uid₀ - v =
      ((pull user.subscribed_funds fid₀).map
        (fun fid => netInvested (l ++ [cancelTxn uid₀ fid₀ fund v ts oid]) uid₀ fid)).sum
    have hmap : ((pull user.subscribed_funds fid₀).map
        (fun fid => netInvested (l ++ [cancelTxn uid₀ fid₀ fund v ts oid]) uid₀ fid)).sum =
        ((pull user.subscribed_funds fid₀).map
          (fun fid => netInvested l uid₀ fid)).sum := by
      congr 1
      refine List.map_congr_left (fun fid hfid => ?_)
      have : fid ≠ fid₀ := (mem_pull.mp hfid).2
      rw [hnet fid, if_neg this, sub_zero]
    rw [hmap, sum_map_pull _ _ _ hnd hsub, hdecomp]

/-- One request (of a validated body) preserves the ledger/cache
consistency invariant for every user. -/
theorem stateInv_applyOp (s : ServiceState) (op : Op) (hw : op.wf) (hs : StateInv s) :
    StateInv (applyOp s op) := by
  cases op with
  | subscribe uid₀ r ts oid =>
      rcases subscribe_snd_cases s uid₀ r ts oid with h | ⟨fund, user, hf, ha, hu, hmin, hbal, h⟩
      · rw [applyOp, h]; exact hs
      · rw [applyOp, h]
        intro uid u hfind
        by_cases huid : uid = uid₀
        · subst huid
          rw [show findUser
              { s with
                  transactions := s.transactions ++ [subTxn uid r fund ts oid]
                  users := updateUser s.users uid (fun u =>
                    { u with
                        balance := user.balance - r.amount
                        subscribed_funds := addToSet u.subscribed_funds r.fund_id }) } uid
              = findUserL (updateUser s.users uid (fun u =>
                  { u with
                      balance := user.balance - r.amount
                      subscribed_funds := addToSet u.subscribed_funds r.fund_id })) uid
            from rfl, findUserL_updateUser_self] at hfind
          rw [show findUser s uid = findUserL s.users uid from rfl] at hu
          rw [hu] at hfind
          have hu' : u = { user with
              balance := user.balance - r.amount
              subscribed_funds := addToSet user.subscribed_funds r.fund_id } := by
            simpa using hfind.symm
          rw [hu']
          exact userInv_subscribe_self fund ts oid (hs uid user hu) hw
        · rw [show findUser
              { s with
                  transactions := s.transactions ++ [subTxn uid₀ r fund ts oid]
                  users := updateUser s.users uid₀ (fun u =>
                    { u with
                        balance := user.balance - r.amount
                        subscribed_funds := addToSet u.subscribed_funds r.fund_id }) } uid
              = findUserL (updateUser s.users uid₀ (fun u =>
                  { u with
                      balance := user.balance - r.amount
                      subscribed_funds := addToSet u.subscribed_funds r.fund_id })) uid
            from rfl, findUserL_updateUser_ne _ _ _ _ huid] at hfind
          refine userInv_congr_ledger (hs uid u hfind) (fun fid => ?_) ?_
          · rw [netInvested_after_subTxn, if_neg (fun hc => huid hc.1.symm), add_zero]
          · rw [subscribedValue_after_subTxn, if_neg (fun hc => huid hc.symm), add_zero]
  | cancel uid₀ c ts oid =>
      rcases cancel_snd_cases s uid₀ c ts oid with h | ⟨fund, user, hf, hu, hsub, hpos, h⟩
      · rw [applyOp, h]; exact hs
      · rw [applyOp, h]
        intro uid u hfind
        by_cases huid : uid = uid₀
        · subst huid
          rw [show findUser
              { s with
                  transactions := s.transactions ++
                    [cancelTxn uid c.fund_id fund (netInvested s.transactions uid c.fund_id) ts oid]
                  users := updateUser s.users uid (fun u =>
                    { u with
                        balance := user.balance + netInvested s.transactions uid c.fund_id
                        subscribed_funds := pull u.subscribed_funds c.fund_id }) } uid
              = findUserL (updateUser s.users uid (fun u =>
                  { u with
                      balance := user.balance + netInvested s.transactions uid c.fund_id
                      subscribed_funds := pull u.subscribed_funds c.fund_id })) uid
            from rfl, findUserL_updateUser_self] at hfind
          rw [show findUser s uid = findUserL s.users uid from rfl] at hu
          rw [hu] at hfind
          have hu' : u = { user with
              balance := user.balance + netInvested s.transactions uid c.fund_id
              subscribed_funds := pull user.subscribed_funds c.fund_id } := by
            simpa using hfind.symm
          rw [hu']
          exact userInv_cancel_self fund ts oid (hs uid user hu) hsub
        · rw [show findUser
              { s with
                  transactions := s.transactions ++
                    [cancelTxn uid₀ c.fund_id fund (netInvested s.transactions uid₀ c.fund_id) ts oid]
                  users := updateUser s.users uid₀ (fun u =>
                    { u with
                        balance := user.balance + netInvested s.transactions uid₀ c.fund_id
                        subscribed_funds := pull u.subscribed_funds c.fund_id }) } uid
              = findUserL (updateUser s.users uid₀ (fun u =>
                  { u with
                      balance := user.balance + netInvested s.transactions uid₀ c.fund_id
                      subscribed_funds := pull u.subscribed_funds c.fund_id })) uid
            from rfl, findUserL_updateUser_ne _ _ _ _ huid] at hfind
          refine userInv_congr_ledger (hs uid u hfind) (fun fid => ?_) ?_
          · rw [netInvested_after_cancelTxn, if_neg (fun hc => huid hc.1.symm), sub_zero]
          · rw [subscribedValue_after_cancelTxn, if_neg (fun hc => huid hc.symm), sub_zero]

/-- Non-negativity of every cached balance is preserved by one request. -/
theorem balancesNonneg_applyOp (s : ServiceState) (op : Op)
    (h : ∀ p ∈ s.users, 0 ≤ p.2.balance) :
    ∀ p ∈ (applyOp s op).users, 0 ≤ p.2.balance := by
  cases op with
  | subscribe uid₀ r ts oid =>
      rcases subscribe_snd_cases s uid₀ r ts oid with h' | ⟨fund, user, hf, ha, hu, hmin, hbal, h'⟩
      · rw [applyOp, h']; exact h
      · rw [applyOp, h']
        intro p hp
        refine forall_updateUser (P := fun u => 0 ≤ u.balance) s.users uid₀ _ h (fun u => ?_) p hp
        show 0 ≤ user.balance - r.amount
        omega
  | cancel uid₀ c ts oid =>
      rcases cancel_snd_cases s uid₀ c ts oid with h' | ⟨fund, user, hf, hu, hsub, hpos, h'⟩
      · rw [applyOp, h']; exact h
      · rw [applyOp, h']
        intro p hp
        obtain ⟨k, hk⟩ := findUserL_mem hu
        have huser : 0 ≤ user.balance := h (k, user) hk
        refine forall_updateUser (P := fun u => 0 ≤ u.balance) s.users uid₀ _ h (fun u => ?_) p hp
        show 0 ≤ user.balance + netInvested s.transactions uid₀ c.fund_id
        omega

theorem stateInv_runOps (s : ServiceState) (ops : List Op)
    (hw : ∀ op ∈ ops, op.wf) (hs : StateInv s) : StateInv (runOps s ops) := by
  induction ops generalizing s with
  | nil => exact hs
  | cons op ops ih =>
      exact ih (applyOp s op) (fun o ho => hw o (List.mem_cons_of_mem _ ho))
        (stateInv_applyOp s op (hw op (List.mem_cons_self _ _)) hs)

theorem balancesNonneg_runOps (s : ServiceState) (ops : List Op)
    (h : ∀ p ∈ s.users, 0 ≤ p.2.balance) :
    ∀ p ∈ (runOps s ops).users, 0 ≤ p.2.balance := by
  induction ops generalizing s with
  | nil => exact h
  | cons op ops ih => exact ih (applyOp s op) (balancesNonneg_applyOp s op h)

/-- Under the consistency invariant, the Portfolio Projection's
invested value coincides with the History Query's clamped fold. -/
theorem balance_history_agree_of_inv (s : ServiceState) (uid : String) (b : UserBalance)
    (hs : StateInv s) (hb : get_user_balance s uid = .ok b) :
    b.subscribed_funds_value = (get_user_transaction_history s uid).total_invested := by
  cases hu : findUser s uid with
  | none => simp [get_user_balance, hu] at hb
  | some user =>
      simp only [get_user_balance, hu] at hb
      injection hb with hb2
      obtain ⟨hnd, hnn, hzero, hdecomp⟩ := hs uid user hu
      rw [← hb2, history_total_eq, ← subscribedValue_eq_sum]
      by_cases he : user.subscribed_funds.isEmpty
      · have hsetnil : user.subscribed_funds = [] := by
          simpa using he
        have hzv : subscribedValue s.transactions uid = 0 := by
          rw [hdecomp, hsetnil]
          rfl
        simp [he, hzv]
      · have hpos : 0 ≤ subscribedValue s.transactions uid := by
          rw [hdecomp]
          refine List.sum_nonneg (fun x hx => ?_)
          obtain ⟨fid, _, rfl⟩ := List.mem_map.mp hx
          exact hnn fid
        simp [he, max_eq_right hpos]

/-! ### Concrete fixtures used to witness the claims -/

/-- The first seeded default fund (`initialize_default_funds`). -/
def demoFund : FundRec :=
  { name := "FPV_BTG_PACTUAL_RECAUDADORA"
    minimum_amount := 75000
    category := .FPV
    is_active := true
    created_at := 0 }

/-- One active fund, one user with the domain-default starting cash
of 500000 and no subscriptions, empty ledger. -/
def demoState : ServiceState :=
  { funds := [("f1", demoFund)]
    users := [("alice", { balance := 500000, subscribed_funds := [] })]
    transactions := [] }

/-- Like `demoState` but the user's cash sits exactly at the fund's
minimum, to witness the boundary cases of the subscribe checks. -/
def edgeState : ServiceState :=
  { funds := [("f1", demoFund)]
    users := [("alice", { balance := 75000, subscribed_funds := [] })]
    transactions := [] }

/-- A user with an empty cached `subscribed_funds` set but a stray
COMPLETED ledger entry, to witness that `get_user_balance` ignores
the ledger when the cache is empty. -/
def strayState : ServiceState :=
  { funds := [("f1", demoFund)]
    users := [("bob", { balance := 200, subscribed_funds := [] })]
    transactions := [
      { id := "x1"
        transaction_id := "TXN_7_bob"
        user_id := "bob"
        fund_id := "f1"
        fund_name := "FPV_BTG_PACTUAL_RECAUDADORA"
        transaction_type := .SUBSCRIPTION
        amount := 999
        status := .COMPLETED
        created_at := 7 }] }

/-! ### The claims -/

/-- C1: for every sequence of Subscribe/Cancel requests (each applied
only when its own precondition checks pass; rejected requests leave
the state untouched), every user's `balance` field stays
non-negative at every point of the run, starting from any state
whose balances are non-negative: Subscribe debits only after the
`balance < amount` check failed, and Cancel only credits a positive
amount. -/
theorem no_negative_balance_invariant (s0 : ServiceState) (ops : List Op) (n : Nat)
    (h0 : ∀ p ∈ s0.users, 0 ≤ p.2.balance) :
    ∀ p ∈ (runOps s0 (ops.take n)).users, 0 ≤ p.2.balance :=
  balancesNonneg_runOps s0 (ops.take n) h0

theorem no_negative_balance_invariant_witness :
    0 ≤ (("alice", ({ balance := 500000, subscribed_funds := [] } : UserRec)) :
      String × UserRec).2.balance :=
  no_negative_balance_invariant demoState
    [Op.subscribe "alice" ⟨"f1", 500000⟩ 5 "t1", Op.cancel "alice" ⟨"f1"⟩ 6 "t2"] 2
    (by decide)
    ("alice", { balance := 500000, subscribed_funds := [] })
    (by decide)

/-- C2: at every point of any sequence of validated Subscribe/Cancel
requests starting from an empty ledger (users created with empty
`subscribed_funds`), the invested value the Portfolio Projection
(`get_user_balance.subscribed_funds_value`) reports for a user
equals the `total_invested` the History Query
(`get_user_transaction_history`) folds from the full ledger. -/
theorem ledger_projection_reconciliation (s0 : ServiceState) (ops : List Op) (n : Nat)
    (uid : String) (b : UserBalance)
    (h0 : s0.transactions = [])
    (h1 : ∀ uid' u, findUser s0 uid' = some u → u.subscribed_funds = [])
    (hwf : ∀ op ∈ ops, op.wf)
    (hb : get_user_balance (runOps s0 (ops.take n)) uid = .ok b) :
    b.subscribed_funds_value =
      (get_user_transaction_history (runOps s0 (ops.take n)) uid).total_invested := by
  refine balance_history_agree_of_inv _ uid b ?_ hb
  refine stateInv_runOps s0 (ops.take n) (fun op ho => hwf op (List.mem_of_mem_take ho)) ?_
  exact stateInv_of_empty_ledger s0 h0
    (fun uid' u hu => by rw [h1 uid' u hu]; exact List.nodup_nil)

theorem ledger_projection_reconciliation_witness :
    (⟨"alice", 500000, 400000, 100000⟩ : UserBalance).subscribed_funds_value =
      (get_user_transaction_history
        (runOps demoState ([Op.subscribe "alice" ⟨"f1", 100000⟩ 5 "t1"].take 1))
        "alice").total_invested :=
  ledger_projection_reconciliation demoState
    [Op.subscribe "alice" ⟨"f1", 100000⟩ 5 "t1"] 1 "alice"
    ⟨"alice", 500000, 400000, 100000⟩
    rfl
    (by
      intro uid' u h
      obtain ⟨k, hk⟩ := findUserL_mem h
      simp only [demoState, List.mem_singleton] at hk
      have : u = { balance := 500000, subscribed_funds := [] } :=
        congrArg Prod.snd hk
      rw [this])
    (by decide)
    rfl

/-- C3: `subscribe_to_fund` checks its preconditions in source order
with first-failure-wins short-circuit — missing fund, inactive fund,
missing user, amount strictly below the fund minimum (reporting the
required minimum), balance strictly below the amount — and both
boundary cases (`amount = minimum_amount`, `balance = amount`) pass
their respective checks, so the call succeeds. -/
theorem subscribe_precondition_order (s : ServiceState) (uid fid : String)
    (amt : Int) (ts : Nat) (oid : String) :
    (findFund s fid = none →
      (subscribe_to_fund s uid ⟨fid, amt⟩ ts oid).1 = .error .fundNotFound) ∧
    (∀ fund, findFund s fid = some fund → fund.is_active = false →
      (subscribe_to_fund s uid ⟨fid, amt⟩ ts oid).1 = .error .fundInactive) ∧
    (∀ fund, findFund s fid = some fund → fund.is_active = true →
      findUser s uid = none →
      (subscribe_to_fund s uid ⟨fid, amt⟩ ts oid).1 = .error .userNotFound) ∧
    (∀ fund user, findFund s fid = some fund → fund.is_active = true →
      findUser s uid = some user → amt < fund.minimum_amount →
      (subscribe_to_fund s uid ⟨fid, amt⟩ ts oid).1 =
        .error (.belowMinimum fund.minimum_amount)) ∧
    (∀ fund user, findFund s fid = some fund → fund.is_active = true →
      findUser s uid = some user → fund.minimum_amount ≤ amt → user.balance < amt →
      (subscribe_to_fund s uid ⟨fid, amt⟩ ts oid).1 = .error .insufficientFunds) ∧
    (∀ fund user, findFund s fid = some fund → fund.is_active = true →
      findUser s uid = some user → amt = fund.minimum_amount → user.balance = amt →
      ∃ t, (subscribe_to_fund s uid ⟨fid, amt⟩ ts oid).1 = .ok t) := by
  refine ⟨?_, ?_, ?_, ?_, ?_, ?_⟩
  · intro h
    simp [subscribe_to_fund, h]
  · intro fund hf ha
    simp [subscribe_to_fund, hf, ha]
  · intro fund hf ha hu
    simp [subscribe_to_fund, hf, ha, hu]
  · intro fund user hf ha hu hlt
    simp [subscribe_to_fund, hf, ha, hu, hlt]
  · intro fund user hf ha hu hmin hlt
    simp [subscribe_to_fund, hf, ha, hu, not_lt.mpr hmin, hlt]
  · intro fund user hf ha hu hamt hbal
    refine ⟨subTxn uid ⟨fid, amt⟩ fund ts oid, ?_⟩
    rw [subscribe_success_eq s uid ⟨fid, amt⟩ ts oid hf ha hu hamt.symm.le hbal.ge]

theorem subscribe_precondition_order_witness :
    ∃ t, (subscribe_to_fund edgeState "alice" ⟨"f1", 75000⟩ 0 "o1").1 = .ok t :=
  (subscribe_precondition_order edgeState "alice" "f1" 75000 0 "o1").2.2.2.2.2
    demoFund { balance := 75000, subscribed_funds := [] } rfl rfl rfl rfl rfl

/-- C4: when all five subscribe checks pass, the call returns `ok`
with the created transaction, which is the single appended ledger
entry, is a COMPLETED SUBSCRIPTION for exactly the requested amount;
the user's balance drops by exactly that amount and the fund id is
added to `subscribed_funds` as an idempotent set-add (the set is
unchanged when the id is already present). -/
theorem subscribe_success_effects (s : ServiceState) (uid : String)
    (r : SubscriptionRequest) (ts : Nat) (oid : String) (fund : FundRec) (user : UserRec)
    (hf : findFund s r.fund_id = some fund) (ha : fund.is_active = true)
    (hu : findUser s uid = some user) (hmin : fund.minimum_amount ≤ r.amount)
    (hbal : r.amount ≤ user.balance) :
    ∃ t, (subscribe_to_fund s uid r ts oid).1 = .ok t ∧
      t.transaction_type = .SUBSCRIPTION ∧
      t.status = .COMPLETED ∧
      t.amount = r.amount ∧
      (subscribe_to_fund s uid r ts oid).2.transactions = s.transactions ++ [t] ∧
      findUser (subscribe_to_fund s uid r ts oid).2 uid =
        some { user with
            balance := user.balance - r.amount
            subscribed_funds := addToSet user.subscribed_funds r.fund_id } ∧
      r.fund_id ∈ addToSet user.subscribed_funds r.fund_id ∧
      (r.fund_id ∈ user.subscribed_funds →
        addToSet user.subscribed_funds r.fund_id = user.subscribed_funds) := by
  have hrw := subscribe_success_eq s uid r ts oid hf ha hu hmin hbal
  refine ⟨subTxn uid r fund ts oid, ?_, rfl, rfl, rfl, ?_, ?_, ?_, ?_⟩
  · rw [hrw]
  · rw [hrw]
  · rw [hrw]
    show findUserL (updateUser s.users uid _) uid = _
    rw [findUserL_updateUser_self]
    rw [show findUserL s.users uid = some user from hu]
    rfl
  · exact mem_addToSet.mpr (Or.inr rfl)
  · exact fun h => addToSet_eq_of_mem h

theorem subscribe_success_effects_witness :
    ∃ t, (subscribe_to_fund demoState "alice" ⟨"f1", 75000⟩ 9 "o1").1 = .ok t ∧
      t.transaction_type = .SUBSCRIPTION ∧
      t.status = .COMPLETED ∧
      t.amount = 75000 ∧
      (subscribe_to_fund demoState "alice" ⟨"f1", 75000⟩ 9 "o1").2.transactions =
        demoState.transactions ++ [t] ∧
      findUser (subscribe_to_fund demoState "alice" ⟨"f1", 75000⟩ 9 "o1").2 "alice" =
        some { balance := 500000 - 75000
               subscribed_funds := addToSet [] "f1" } ∧
      "f1" ∈ addToSet ([] : List String) "f1" ∧
      ("f1" ∈ ([] : List String) → addToSet ([] : List String) "f1" = []) :=
  subscribe_success_effects demoState "alice" ⟨"f1", 75000⟩ 9 "o1" demoFund
    { balance := 500000, subscribed_funds := [] }
    rfl rfl rfl (by decide) (by decide)

/-- C5: when all four cancel checks pass, the call returns `ok` with
the single appended COMPLETED CANCELLATION entry whose amount is the
full `netInvested` for that user and fund immediately before the
call (full liquidation); the balance grows by exactly that amount,
the fund id is removed from `subscribed_funds`, and the resulting
`netInvested` is 0. -/
theorem cancel_success_effects (s : ServiceState) (uid : String)
    (c : CancellationRequest) (ts : Nat) (oid : String) (fund : FundRec) (user : UserRec)
    (hf : findFund s c.fund_id = some fund)
    (hu : findUser s uid = some user)
    (hsub : c.fund_id ∈ user.subscribed_funds)
    (hpos : 0 < netInvested s.transactions uid c.fund_id) :
    ∃ t, (cancel_fund_subscription s uid c ts oid).1 = .ok t ∧
      t.transaction_type = .CANCELLATION ∧
      t.status = .COMPLETED ∧
      t.amount = netInvested s.transactions uid c.fund_id ∧
      (cancel_fund_subscription s uid c ts oid).2.transactions = s.transactions ++ [t] ∧
      findUser (cancel_fund_subscription s uid c ts oid).2 uid =
        some { user with
            balance := user.balance + netInvested s.transactions uid c.fund_id
            subscribed_funds := pull user.subscribed_funds c.fund_id } ∧
      c.fund_id ∉ pull user.subscribed_funds c.fund_id ∧
      netInvested (cancel_fund_subscription s uid c ts oid).2.transactions uid c.fund_id = 0 := by
  have hrw := cancel_success_eq s uid c ts oid hf hu hsub hpos
  refine ⟨cancelTxn uid c.fund_id fund (netInvested s.transactions uid c.fund_id) ts oid,
    ?_, rfl, rfl, rfl, ?_, ?_, ?_, ?_⟩
  · rw [hrw]
  · rw [hrw]
  · rw [hrw]
    show findUserL (updateUser s.users uid _) uid = _
    rw [findUserL_updateUser_self]
    rw [show findUserL s.users uid = some user from hu]
    rfl
  · intro h
    exact (mem_pull.mp h).2 rfl
  · rw [hrw]
    show netInvested (s.transactions ++ [cancelTxn uid c.fund_id fund
      (netInvested s.transactions uid c.fund_id) ts oid]) uid c.fund_id = 0
    rw [netInvested_after_cancelTxn, if_pos ⟨rfl, rfl⟩]
    ring

theorem cancel_success_effects_witness :
    ∃ t, (cancel_fund_subscription
        (runOps demoState [Op.subscribe "alice" ⟨"f1", 75000⟩ 5 "o1"]) "alice"
        ⟨"f1"⟩ 6 "o2").1 = .ok t ∧
      t.transaction_type = .CANCELLATION ∧
      t.status = .COMPLETED ∧
      t.amount = netInvested
        (runOps demoState [Op.subscribe "alice" ⟨"f1", 75000⟩ 5 "o1"]).transactions
        "alice" "f1" ∧
      (cancel_fund_subscription
        (runOps demoState [Op.subscribe "alice" ⟨"f1", 75000⟩ 5 "o1"]) "alice"
        ⟨"f1"⟩ 6 "o2").2.transactions =
        (runOps demoState [Op.subscribe "alice" ⟨"f1", 75000⟩ 5 "o1"]).transactions ++ [t] ∧
      findUser (cancel_fund_subscription
        (runOps demoState [Op.subscribe "alice" ⟨"f1", 75000⟩ 5 "o1"]) "alice"
        ⟨"f1"⟩ 6 "o2").2 "alice" =
        some { balance := 425000 + netInvested
                 (runOps demoState [Op.subscribe "alice" ⟨"f1", 75000⟩ 5 "o1"]).transactions
                 "alice" "f1"
               subscribed_funds := pull ["f1"] "f1" } ∧
      "f1" ∉ pull ["f1"] "f1" ∧
      netInvested (cancel_fund_subscription
        (runOps demoState [Op.subscribe "alice" ⟨"f1", 75000⟩ 5 "o1"]) "alice"
        ⟨"f1"⟩ 6 "o2").2.transactions "alice" "f1" = 0 :=
  cancel_success_effects
    (runOps demoState [Op.subscribe "alice" ⟨"f1", 75000⟩ 5 "o1"]) "alice"
    ⟨"f1"⟩ 6 "o2" demoFund { balance := 425000, subscribed_funds := ["f1"] }
    rfl rfl (by decide) (by decide)

/-- C6: `cancel_fund_subscription` checks its preconditions in source
order — missing fund, missing user, fund id absent from the cached
`subscribed_funds` set, and finally a non-positive `netInvested`
recomputed by folding the COMPLETED ledger entries of that user and
fund (so the cached set is not trusted for the amount). -/
theorem cancel_precondition_order (s : ServiceState) (uid fid : String)
    (ts : Nat) (oid : String) :
    (findFund s fid = none →
      (cancel_fund_subscription s uid ⟨fid⟩ ts oid).1 = .error .fundNotFound) ∧
    (∀ fund, findFund s fid = some fund → findUser s uid = none →
      (cancel_fund_subscription s uid ⟨fid⟩ ts oid).1 = .error .userNotFound) ∧
    (∀ fund user, findFund s fid = some fund → findUser s uid = some user →
      fid ∉ user.subscribed_funds →
      (cancel_fund_subscription s uid ⟨fid⟩ ts oid).1 = .error .notSubscribed) ∧
    (∀ fund user, findFund s fid = some fund → findUser s uid = some user →
      fid ∈ user.subscribed_funds → netInvested s.transactions uid fid ≤ 0 →
      (cancel_fund_subscription s uid ⟨fid⟩ ts oid).1 = .error .noActiveInvestment) := by
  refine ⟨?_, ?_, ?_, ?_⟩
  · intro h
    simp [cancel_fund_subscription, h]
  · intro fund hf hu
    simp [cancel_fund_subscription, hf, hu]
  · intro fund user hf hu hsub
    simp [cancel_fund_subscription, hf, hu, hsub]
  · intro fund user hf hu hsub hnet
    simp [cancel_fund_subscription, hf, hu, hsub, hnet]

theorem cancel_precondition_order_witness :
    (cancel_fund_subscription demoState "alice" ⟨"f1"⟩ 3 "o9").1 =
      .error .notSubscribed :=
  (cancel_precondition_order demoState "alice" "f1" 3 "o9").2.2.1
    demoFund { balance := 500000, subscribed_funds := [] } rfl rfl (by decide)

/-- C7: whenever a subscribe or cancel request is rejected with a
typed error, the whole state is unchanged — no ledger entry, no
balance change, no `subscribed_funds` change (every check precedes
the first write). -/
theorem failed_request_leaves_state_unchanged (s : ServiceState) (uid fid : String)
    (amt : Int) (ts : Nat) (oid : String) :
    (∀ e, (subscribe_to_fund s uid ⟨fid, amt⟩ ts oid).1 = .error e →
      (subscribe_to_fund s uid ⟨fid, amt⟩ ts oid).2 = s) ∧
    (∀ e, (cancel_fund_subscription s uid ⟨fid⟩ ts oid).1 = .error e →
      (cancel_fund_subscription s uid ⟨fid⟩ ts oid).2 = s) := by
  constructor
  · intro e he
    rcases subscribe_dichotomy s uid ⟨fid, amt⟩ ts oid with ⟨e', h⟩ | ⟨t, s', h⟩
    · rw [h]
    · rw [h] at he
      cases he
  · intro e he
    rcases cancel_dichotomy s uid ⟨fid⟩ ts oid with ⟨e', h⟩ | ⟨t, s', h⟩
    · rw [h]
    · rw [h] at he
      cases he

theorem failed_request_leaves_state_unchanged_witness :
    (subscribe_to_fund demoState "alice" ⟨"f1", 50000⟩ 2 "o3").2 = demoState :=
  (failed_request_leaves_state_unchanged demoState "alice" "f1" 50000 2 "o3").1
    (.belowMinimum 75000) rfl

/-- C8: against the deployed storage layer — where `connect_to_mongo`
has run `create_indexes`, putting a unique index on
`transactions.transaction_id` before any service call — every pair of
distinct ledger entries carries different `transaction_id` values at
every point of any Subscribe/Cancel sequence, starting from any
ledger whose ids are pairwise distinct (in particular the empty one).
This includes two operations by the same user within the same second:
there the second insert computes the same id, violates the index, the
session transaction aborts with nothing committed, and no duplicate
entry ever lands. -/
theorem transaction_id_unique_per_entry (s0 : ServiceState) (ops : List Op) (n : Nat)
    (h0 : (s0.transactions.map (fun t => t.transaction_id)).Nodup) :
    ((runOpsIdx s0 (ops.take n)).transactions.map (fun t => t.transaction_id)).Nodup :=
  txnIds_nodup_runOpsIdx s0 (ops.take n) h0

theorem transaction_id_unique_per_entry_witness :
    ((runOpsIdx demoState
        ([Op.subscribe "alice" ⟨"f1", 75000⟩ 100 "o1",
          Op.subscribe "alice" ⟨"f1", 80000⟩ 100 "o2"].take 2)).transactions.map
      (fun t => t.transaction_id)).Nodup :=
  transaction_id_unique_per_entry demoState
    [Op.subscribe "alice" ⟨"f1", 75000⟩ 100 "o1",
     Op.subscribe "alice" ⟨"f1", 80000⟩ 100 "o2"] 2
    (by decide)

/-- Concrete trace of the same-user same-second pair: the first
subscription lands with id `TXN_100_alice`; the second computes the
identical id, its insert violates the unique index
(`DuplicateKeyError`), the session transaction aborts with the state
unchanged, and the run ends with a single-entry ledger. -/
theorem same_second_duplicate_insert_aborts :
    (subscribe_to_fund_idx
        (runOpsIdx demoState [Op.subscribe "alice" ⟨"f1", 75000⟩ 100 "o1"])
        "alice" ⟨"f1", 80000⟩ 100 "o2").1 = .error .duplicateKey ∧
    (subscribe_to_fund_idx
        (runOpsIdx demoState [Op.subscribe "alice" ⟨"f1", 75000⟩ 100 "o1"])
        "alice" ⟨"f1", 80000⟩ 100 "o2").2 =
      runOpsIdx demoState [Op.subscribe "alice" ⟨"f1", 75000⟩ 100 "o1"] ∧
    ((runOpsIdx demoState
        [Op.subscribe "alice" ⟨"f1", 75000⟩ 100 "o1",
         Op.subscribe "alice" ⟨"f1", 80000⟩ 100 "o2"]).transactions.map
      (fun t => t.transaction_id)) = ["TXN_100_alice"] :=
  ⟨rfl, rfl, rfl⟩

/-- The fund document `create_fund` inserts for a request. -/
def newFund (d : FundCreate) (ts : Nat) : FundRec :=
  { name := d.name
    minimum_amount := d.minimum_amount
    category := d.category
    is_active := true
    created_at := ts }

/-- C9: `create_fund` fails with the duplicate-name error when some
catalog entry already carries the requested name, leaving the catalog
untouched; with a fresh name the first creation succeeds (appending
exactly one entry) and a second creation with the same name fails
with the duplicate-name error, leaving the catalog as it was after
the first call. -/
theorem create_fund_duplicate_name (s : ServiceState) (d d' : FundCreate)
    (oid : String) (ts : Nat) (oid' : String) (ts' : Nat) (hname : d'.name = d.name) :
    ((∃ p ∈ s.funds, p.2.name = d.name) →
      create_fund s d oid ts = (.error .duplicateName, s)) ∧
    ((∀ p ∈ s.funds, p.2.name ≠ d.name) →
      create_fund s d oid ts =
          (.ok (newFund d ts), { s with funds := s.funds ++ [(oid, newFund d ts)] }) ∧
        create_fund { s with funds := s.funds ++ [(oid, newFund d ts)] } d' oid' ts' =
          (.error .duplicateName,
           { s with funds := s.funds ++ [(oid, newFund d ts)] })) := by
  constructor
  · rintro ⟨p, hp, hpname⟩
    cases hfind : s.funds.find? (fun q => q.2.name == d.name) with
    | none =>
        exact absurd (beq_iff_eq.mpr hpname) (List.find?_eq_none.mp hfind p hp)
    | some q =>
        simp [create_fund, hfind]
  · intro hall
    have hnone : s.funds.find? (fun q => q.2.name == d.name) = none :=
      List.find?_eq_none.mpr (fun q hq hbeq => hall q hq (by simpa using hbeq))
    constructor
    · simp [create_fund, hnone, newFund]
    · have hnone' : s.funds.find? (fun q => q.2.name == d'.name) = none := by
        rw [hname]
        exact hnone
      have hfind2 : (s.funds ++ [(oid, newFund d ts)]).find?
          (fun q => q.2.name == d'.name) = some (oid, newFund d ts) := by
        rw [List.find?_append, hnone']
        simp [newFund, hname]
      simp [create_fund, hfind2]

theorem create_fund_duplicate_name_witness :
    create_fund demoState ⟨"DEUDAPRIVADA", 50000, .FIC⟩ "g1" 0 =
        (.ok (newFund ⟨"DEUDAPRIVADA", 50000, .FIC⟩ 0),
         { demoState with
             funds := demoState.funds ++ [("g1", newFund ⟨"DEUDAPRIVADA", 50000, .FIC⟩ 0)] }) ∧
      create_fund
          { demoState with
              funds := demoState.funds ++ [("g1", newFund ⟨"DEUDAPRIVADA", 50000, .FIC⟩ 0)] }
          ⟨"DEUDAPRIVADA", 50000, .FIC⟩ "g2" 1 =
        (.error .duplicateName,
         { demoState with
             funds := demoState.funds ++ [("g1", newFund ⟨"DEUDAPRIVADA", 50000, .FIC⟩ 0)] }) :=
  (create_fund_duplicate_name demoState ⟨"DEUDAPRIVADA", 50000, .FIC⟩
    ⟨"DEUDAPRIVADA", 50000, .FIC⟩ "g1" 0 "g2" 1 rfl).2 (by decide)

/-- C10: for a user whose cached `subscribed_funds` list is empty,
`get_user_balance` reports `subscribed_funds_value = 0` and
`current_balance = available_balance = balance`, whatever the ledger
contains (the state — and with it the ledger — is universally
quantified, so the fold is never consulted). -/
theorem empty_cache_balance_skips_ledger (s : ServiceState) (uid : String) (u : UserRec)
    (hu : findUser s uid = some u) (he : u.subscribed_funds = []) :
    get_user_balance s uid =
      .ok { user_id := uid
            current_balance := u.balance
            available_balance := u.balance
            subscribed_funds_value := 0 } := by
  simp [get_user_balance, hu, he]

theorem empty_cache_balance_skips_ledger_witness :
    get_user_balance strayState "bob" =
      .ok { user_id := "bob"
            current_balance := 200
            available_balance := 200
            subscribed_funds_value := 0 } :=
  empty_cache_balance_skips_ledger strayState "bob"
    { balance := 200, subscribed_funds := [] } rfl rfl

end BTG
